import Mathlib

/-!
Verification development for the slip-verification core: a shallow embedding
of the transaction-identifier parser, validator, risk scorer, timestamp
cross-verifier, validation orchestrator, OCR-text normalizer and
identifier repair engine, with theorems settling the specification claims.

Strings are modelled as `List Char` (JS strings are sequences of UTF-16
units; every character occurring in this code base is a BMP scalar, so the
two views coincide).  JS case conversion is modelled on the ASCII range
only (the grammar and every substitution table are ASCII/Thai, and Thai has
no case).  The wall-clock "current year" (Buddhist Era), read from
`new Date()` in the source, is passed explicitly as a `cy : Nat` parameter.
-/

namespace SlipSpec

/-! ### Character classes -/

/-- JS `\s` (also the character set removed by `String.prototype.trim`). -/
def isWsJS (c : Char) : Bool :=
  let n := c.toNat
  n = 9 || n = 10 || n = 11 || n = 12 || n = 13 || n = 32 || n = 160 ||
  n = 0x1680 || (0x2000 ≤ n && n ≤ 0x200A) || n = 0x2028 || n = 0x2029 ||
  n = 0x202F || n = 0x205F || n = 0x3000 || n = 0xFEFF

def isDigitC (c : Char) : Bool := decide ('0' ≤ c) && decide (c ≤ '9')

def isUpperC (c : Char) : Bool := decide ('A' ≤ c) && decide (c ≤ 'Z')

/-- The character class `[A-Z0-9]` of the strict pattern. -/
def isUpperAlnum (c : Char) : Bool := isUpperC c || isDigitC c

/-- ASCII upper-casing, written as an explicit table so that every fact
about it is provable by finite case analysis. -/
def upChar (c : Char) : Char :=
  if c = 'a' then 'A' else if c = 'b' then 'B' else if c = 'c' then 'C' else
  if c = 'd' then 'D' else if c = 'e' then 'E' else if c = 'f' then 'F' else
  if c = 'g' then 'G' else if c = 'h' then 'H' else if c = 'i' then 'I' else
  if c = 'j' then 'J' else if c = 'k' then 'K' else if c = 'l' then 'L' else
  if c = 'm' then 'M' else if c = 'n' then 'N' else if c = 'o' then 'O' else
  if c = 'p' then 'P' else if c = 'q' then 'Q' else if c = 'r' then 'R' else
  if c = 's' then 'S' else if c = 't' then 'T' else if c = 'u' then 'U' else
  if c = 'v' then 'V' else if c = 'w' then 'W' else if c = 'x' then 'X' else
  if c = 'y' then 'Y' else if c = 'z' then 'Z' else c

/-- ASCII lower-casing (used by the recipient-name comparison). -/
def lowChar (c : Char) : Char :=
  if c = 'A' then 'a' else if c = 'B' then 'b' else if c = 'C' then 'c' else
  if c = 'D' then 'd' else if c = 'E' then 'e' else if c = 'F' then 'f' else
  if c = 'G' then 'g' else if c = 'H' then 'h' else if c = 'I' then 'i' else
  if c = 'J' then 'j' else if c = 'K' then 'k' else if c = 'L' then 'l' else
  if c = 'M' then 'm' else if c = 'N' then 'n' else if c = 'O' then 'o' else
  if c = 'P' then 'p' else if c = 'Q' then 'q' else if c = 'R' then 'r' else
  if c = 'S' then 's' else if c = 'T' then 't' else if c = 'U' then 'u' else
  if c = 'V' then 'v' else if c = 'W' then 'w' else if c = 'X' then 'x' else
  if c = 'Y' then 'y' else if c = 'Z' then 'z' else c

/-- Numeric value of a digit character. -/
def dv (c : Char) : Nat := c.toNat - 48

/-- `parseInt` on a string of decimal digits. -/
def digitsToNat (l : List Char) : Nat := l.foldl (fun a c => 10 * a + dv c) 0

/-- Decimal rendering of a number, as interpolated into messages. -/
def natRepr (n : Nat) : List Char := (Nat.repr n).data

/-- The cleaning step of `parse`/`isValid`:
`transactionId.trim().replace(/\s/g, '').toUpperCase()`.
Trimming is subsumed by the global whitespace removal. -/
def cleanId (s : List Char) : List Char := (s.filter (fun c => !isWsJS c)).map upChar

/-! ### List-of-characters primitives (JS string search/replace) -/

/-- `startsWithL k s` : `k` is a leading segment of `s`. -/
def startsWithL : List Char → List Char → Bool
  | [], _ => true
  | _ :: _, [] => false
  | a :: as, b :: bs => a = b && startsWithL as bs

/-- `occursIn k s` : `k` occurs contiguously somewhere inside `s`
(JS `String.prototype.includes`, also regex search for a literal). -/
def occursIn (k : List Char) : List Char → Bool
  | [] => k.isEmpty
  | c :: rest => startsWithL k (c :: rest) || occursIn k rest

/-- Fuel-indexed worker for global literal replacement, structurally
recursive so that it evaluates inside the kernel. -/
def replaceAllF (k v : List Char) : Nat → List Char → List Char
  | 0, s => s
  | _ + 1, [] => []
  | fuel + 1, c :: rest =>
    if startsWithL k (c :: rest) then v ++ replaceAllF k v fuel ((c :: rest).drop k.length)
    else c :: replaceAllF k v fuel rest

/-- JS `s.replace(new RegExp(k, 'g'), v)` for a literal pattern `k`:
left-to-right, non-overlapping, the replacement text is not rescanned. -/
def replaceAll (k v s : List Char) : List Char :=
  if k.isEmpty then s else replaceAllF k v s.length s

/-- Applies an ordered substitution table, first entry first. -/
def applyFixes (t : List (List Char × List Char)) (s : List Char) : List Char :=
  t.foldl (fun acc p => replaceAll p.1 p.2 acc) s

/-! ### Grammar parser (`TransactionParser.parse`) -/

/-- The fixed domain literal `KBANK_PREFIX = '0152'`. -/
def prefixK : List Char := ['0', '1', '5', '2']

/-- Field slices of a canonical identifier (positions per the grammar). -/
def yyStr (c : List Char) : List Char := (c.drop 4).take 2

def hhStr (c : List Char) : List Char := (c.drop 6).take 2

def mmStr (c : List Char) : List Char := (c.drop 8).take 2

def ssStr (c : List Char) : List Char := (c.drop 10).take 2

def typeStr (c : List Char) : List Char := (c.drop 12).take 4

def seqStr (c : List Char) : List Char := c.drop 16

def hourOf (c : List Char) : Nat := digitsToNat (hhStr c)

def minuteOf (c : List Char) : Nat := digitsToNat (mmStr c)

def secondOf (c : List Char) : Nat := digitsToNat (ssStr c)

/-- `year = 2470 + parseInt(yy, 10)` (year code 98 = 2568 BE). -/
def yearOf (c : List Char) : Nat := 2470 + digitsToNat (yyStr c)

/-- `STRICT_PATTERN = /^0152\d{8}[A-Z0-9]{4}\d{3,5}$/` as a predicate:
the literal, eight digits, four alphanumerics, three to five digits,
anchored at both ends (so total length 19 to 21). -/
def strictOk (c : List Char) : Bool :=
  decide (19 ≤ c.length) && decide (c.length ≤ 21) &&
  startsWithL prefixK c &&
  ((c.drop 4).take 8).all isDigitC &&
  (typeStr c).all isUpperAlnum &&
  (seqStr c).all isDigitC

/-- `MIN_LENGTH = 20`, `MAX_LENGTH = 21`. -/
def lenOk (c : List Char) : Bool := decide (20 ≤ c.length) && decide (c.length ≤ 21)

/-- Negation of `hour > 23 || minute > 59 || second > 59`. -/
def timeOk (c : List Char) : Bool :=
  decide (hourOf c ≤ 23) && decide (minuteOf c ≤ 59) && decide (secondOf c ≤ 59)

/-- Negation of `year < currentYear - 5 || year > currentYear + 1`
(stated additively, which is the same inequality over the integers). -/
def yearOk (cy : Nat) (c : List Char) : Bool :=
  decide (cy ≤ yearOf c + 5) && decide (yearOf c ≤ cy + 1)

/-- `this.transactionTypes`, in insertion order. -/
def typeTable : List (List Char × List Char) :=
  [(['B','P','M','O'], "Bill Payment Mobile Online".data),
   (['B','Q','R','0'], "Bill QR Payment".data),
   (['B','Q','R'], "Bill QR Payment".data),
   (['B','P','A','Y'], "Bill Payment".data),
   (['A','T','F','0'], "Account Transfer via Mobile".data),
   (['A','T','F'], "Account Transfer".data),
   (['A','T','M','O'], "Account Transfer Mobile Online".data),
   (['A','T','M','B'], "ATM Transfer".data),
   (['A','P','M','0'], "App Payment".data),
   (['A','P','M'], "App Payment".data),
   (['A','P','A','Y'], "App Payment".data),
   (['Q','R','P','0'], "QR Payment".data),
   (['Q','R','P','M'], "QR PromptPay".data),
   (['T','F','M','O'], "Transfer Mobile".data)]

/-- Dictionary lookup `this.transactionTypes[type]`. -/
def findType (ty : List Char) : Option (List Char) :=
  (typeTable.find? (fun p => decide (p.1 = ty))).map (fun p => p.2)

/-- `this.transactionTypes[type] || 'Unknown Transaction Type'`. -/
def lookupType (ty : List Char) : List Char :=
  (findType ty).getD "Unknown Transaction Type".data

/-- The decoded record returned by `parse` (the constant validation flags
and the duplicated timestamp sub-object of the source are omitted). -/
structure ParsedIdentifier where
  raw : List Char
  year : Nat
  yearCode : List Char
  time : List Char
  hour : Nat
  minute : Nat
  second : Nat
  type : List Char
  typeDescription : List Char
  isKnownType : Bool
  sequence : List Char
  length : Nat
deriving DecidableEq

/-- Builds the record from a cleaned identifier that passed all checks. -/
def mkParsed (c : List Char) : ParsedIdentifier :=
  ⟨c, yearOf c, yyStr c, hhStr c ++ [':'] ++ mmStr c ++ [':'] ++ ssStr c,
   hourOf c, minuteOf c, secondOf c, typeStr c, lookupType (typeStr c),
   (findType (typeStr c)).isSome, seqStr c, c.length⟩

/-- `TransactionParser.parse(transactionId)`.  `cy` is the wall-clock
current year in Buddhist Era (`new Date().getFullYear() + 543`).  The
falsy guard of the source rejects the empty string; the capture regex has
the same character classes as `STRICT_PATTERN`, so its groups are exactly
the fixed field slices. -/
def parse (cy : Nat) (id : List Char) : Option ParsedIdentifier :=
  if id = [] then none else
  if !startsWithL prefixK (cleanId id) then none else
  if !lenOk (cleanId id) then none else
  if !strictOk (cleanId id) then none else
  if !timeOk (cleanId id) then none else
  if !yearOk cy (cleanId id) then none else
  some (mkParsed (cleanId id))

/-! ### Validator (`TransactionParser.isValid`) -/

structure ValidationOutcome where
  valid : Bool
  reason : List Char
  parsed : Option ParsedIdentifier
deriving DecidableEq

def requiredMsg : List Char := "Transaction ID is required and must be a string".data

def prefixMsg (c : List Char) : List Char :=
  "Invalid prefix. Expected \"0152\" (KBank K PLUS), got \"".data ++ c.take 4 ++ "\"".data

def lengthMsg (c : List Char) : List Char :=
  "Invalid length. Expected 20-21 characters, got ".data ++ natRepr c.length

def patternMsg : List Char :=
  "Invalid format. Expected pattern: 0152 + 8 digits + 4 letters + 3-5 digits".data

def parseFailMsg : List Char :=
  "Failed to parse transaction ID. May contain invalid time or year values".data

def validMsg : List Char := "Valid KBank K PLUS transaction ID".data

/-- `TransactionParser.isValid(transactionId)`: reports the first failing
check, in source order presence, prefix, length, pattern, semantic parse. -/
def isValid (cy : Nat) (id : List Char) : ValidationOutcome :=
  if id = [] then ⟨false, requiredMsg, none⟩ else
  if !startsWithL prefixK (cleanId id) then ⟨false, prefixMsg (cleanId id), none⟩ else
  if !lenOk (cleanId id) then ⟨false, lengthMsg (cleanId id), none⟩ else
  if !strictOk (cleanId id) then ⟨false, patternMsg, none⟩ else
  match parse cy (cleanId id) with
  | none => ⟨false, parseFailMsg, none⟩
  | some p => ⟨true, validMsg, some p⟩

/-! ### Risk scorer (`TransactionParser.detectFakeSlip`) -/

inductive RiskLevel where
  | LOW
  | MEDIUM
  | HIGH
deriving DecidableEq

def RiskLevel.toNat : RiskLevel → Nat
  | .LOW => 0
  | .MEDIUM => 1
  | .HIGH => 2

/-- The spec order LOW < MEDIUM < HIGH on risk levels. -/
def rLe (a b : RiskLevel) : Prop := a.toNat ≤ b.toNat

instance (a b : RiskLevel) : Decidable (rLe a b) := by unfold rLe; infer_instance

def unknownTypeMsg (ty : List Char) : List Char :=
  "Unknown transaction type code: ".data ++ ty

def repetitiveMsg : List Char := "Sequential number is repetitive (e.g. 1111, 2222)".data

def oldYearMsg (y : Nat) : List Char :=
  "Transaction year ".data ++ natRepr y ++ " is older than expected".data

def futureYearMsg (y : Nat) : List Char :=
  "Transaction year ".data ++ natRepr y ++ " is in the future".data

def midnightMsg : List Char := "Transaction time is exactly 00:00:00 (unusual)".data

/-- Test of `/^(\d)\1+$/` on the sequence field. -/
def isRepetitive (seq : List Char) : Bool :=
  match seq with
  | [] => false
  | [_] => false
  | c :: d :: rest => isDigitC c && decide (d = c) && rest.all (fun e => decide (e = c))

/-- Check 1: unknown transaction type escalates to MEDIUM. -/
def riskStep1 (p : ParsedIdentifier) (st : RiskLevel × List (List Char)) : RiskLevel × List (List Char) :=
  if p.isKnownType then st else (.MEDIUM, st.2 ++ [unknownTypeMsg p.type])

/-- Check 2: repetitive sequence escalates to MEDIUM. -/
def riskStep2 (p : ParsedIdentifier) (st : RiskLevel × List (List Char)) : RiskLevel × List (List Char) :=
  if isRepetitive p.sequence then (.MEDIUM, st.2 ++ [repetitiveMsg]) else st

/-- Check 3: `year < currentYear - 2` sets MEDIUM, else
`year > currentYear + 1` sets HIGH (stated additively over Nat). -/
def riskStep3 (cy : Nat) (p : ParsedIdentifier) (st : RiskLevel × List (List Char)) : RiskLevel × List (List Char) :=
  if p.year + 2 < cy then (.MEDIUM, st.2 ++ [oldYearMsg p.year])
  else if cy + 1 < p.year then (.HIGH, st.2 ++ [futureYearMsg p.year])
  else st

/-- Check 4: time exactly 00:00:00 escalates to MEDIUM. -/
def riskStep4 (p : ParsedIdentifier) (st : RiskLevel × List (List Char)) : RiskLevel × List (List Char) :=
  if p.hour = 0 && p.minute = 0 && p.second = 0 then (.MEDIUM, st.2 ++ [midnightMsg]) else st

/-- The four heuristic checks, in source order, from the initial LOW state. -/
def riskChecks (cy : Nat) (p : ParsedIdentifier) : RiskLevel × List (List Char) :=
  riskStep4 p (riskStep3 cy p (riskStep2 p (riskStep1 p (.LOW, []))))

/-- The running states after each successive check. -/
def riskState1 (p : ParsedIdentifier) : RiskLevel × List (List Char) :=
  riskStep1 p (.LOW, [])

def riskState2 (p : ParsedIdentifier) : RiskLevel × List (List Char) :=
  riskStep2 p (riskState1 p)

def riskState3 (cy : Nat) (p : ParsedIdentifier) : RiskLevel × List (List Char) :=
  riskStep3 cy p (riskState2 p)

def riskState4 (cy : Nat) (p : ParsedIdentifier) : RiskLevel × List (List Char) :=
  riskStep4 p (riskState3 cy p)

/-- The recommendation conditional of the valid branch of `detectFakeSlip`. -/
def recommendOf : RiskLevel → List Char
  | .HIGH => "Reject - Multiple suspicious indicators".data
  | .MEDIUM => "Review - Some suspicious indicators detected".data
  | .LOW => "Accept - No major concerns".data

def invalidRec : List Char := "Reject - Invalid transaction ID format".data

structure FakeSlipResult where
  isSuspicious : Bool
  riskLevel : RiskLevel
  reasons : List (List Char)
  recommendation : List Char
  parsed : Option ParsedIdentifier
deriving DecidableEq

/-- `TransactionParser.detectFakeSlip(transactionId)`. -/
def detectFakeSlip (cy : Nat) (id : List Char) : FakeSlipResult :=
  let v := isValid cy id
  if !v.valid then ⟨true, .HIGH, [v.reason], invalidRec, none⟩ else
  match v.parsed with
  | none => ⟨true, .HIGH, [v.reason], invalidRec, none⟩
  | some p =>
    let st := riskChecks cy p
    let lvl := if 2 < st.2.length then RiskLevel.HIGH else st.1
    ⟨!st.2.isEmpty, lvl, st.2, recommendOf lvl, some p⟩

/-! ### Timestamp cross-verifier (`TransactionParser.verifyDateTime`) -/

/-- Anchored match of `(\d{1,2}):(\d{2})` at the head of the list, trying
the greedy two-digit hour first, as the backtracking engine does. -/
def timeAt (l : List Char) : Option (Nat × Nat) :=
  if isDigitC (l.getD 0 ' ') && isDigitC (l.getD 1 ' ') && decide (l.getD 2 ' ' = ':') &&
     isDigitC (l.getD 3 ' ') && isDigitC (l.getD 4 ' ') then
    some (10 * dv (l.getD 0 ' ') + dv (l.getD 1 ' '), 10 * dv (l.getD 3 ' ') + dv (l.getD 4 ' '))
  else if isDigitC (l.getD 0 ' ') && decide (l.getD 1 ' ' = ':') &&
          isDigitC (l.getD 2 ' ') && isDigitC (l.getD 3 ' ') then
    some (dv (l.getD 0 ' '), 10 * dv (l.getD 2 ' ') + dv (l.getD 3 ' '))
  else none

/-- Leftmost match of `(\d{1,2}):(\d{2})` (the `timeMatch` regex). -/
def extractTime : List Char → Option (Nat × Nat)
  | [] => none
  | c :: rest =>
    match timeAt (c :: rest) with
    | some r => some r
    | none => extractTime rest

/-- Anchored match of `\s(\d{2})\s+(\d{1,2}):(\d{2})` at the head of the
list.  The greedy whitespace run cannot trade characters with the
following digit group (no character is both), so backtracking reduces to
taking the maximal run. -/
def yearAt (l : List Char) : Option Nat :=
  if isWsJS (l.getD 0 '0') && isDigitC (l.getD 1 ' ') && isDigitC (l.getD 2 ' ') then
    let tail3 := l.drop 3
    let w := (tail3.takeWhile isWsJS).length
    if decide (1 ≤ w) && (timeAt (tail3.drop w)).isSome then
      some (10 * dv (l.getD 1 ' ') + dv (l.getD 2 ' '))
    else none
  else none

/-- Leftmost match of the `yearMatch` regex (only its first group is used). -/
def extractYear : List Char → Option Nat
  | [] => none
  | c :: rest =>
    match yearAt (c :: rest) with
    | some r => some r
    | none => extractYear rest

structure DateTimeVerification where
  valid : Bool
  dateMatch : Bool
  timeMatch : Bool
  ocrYear : Option Nat
  ocrHour : Option Nat
  ocrMinute : Option Nat
  message : List Char
deriving DecidableEq

def invalidIdMsg : List Char := "Invalid transaction ID format".data

def noOcrMsg : List Char := "OCR date/time not provided".data

def matchedMsg : List Char := "Date and time match between transaction ID and OCR".data

/-- JS string interpolation of a possibly-null number. -/
def optNatStr : Option Nat → List Char
  | none => "null".data
  | some n => natRepr n

/-- `String(x).padStart(2, '0')` for a possibly-null number. -/
def padMinStr : Option Nat → List Char
  | none => "null".data
  | some n => if n < 10 then "0".data ++ natRepr n else natRepr n

def mismatchMsg (p : ParsedIdentifier) (oy oh om : Option Nat) : List Char :=
  "Mismatch - Transaction: Time ".data ++ natRepr p.hour ++ ":".data ++ padMinStr (some p.minute) ++
  " | OCR: Year ".data ++ optNatStr oy ++ ", Time ".data ++ optNatStr oh ++ ":".data ++ padMinStr om

/-- `TransactionParser.verifyDateTime(transactionId, ocrDateTime)`.  The
`dateMatches` flag is initialised `true` and only ever re-assigned `true`:
the two year fields are deliberately not compared. -/
def verifyDateTime (cy : Nat) (id ocr : List Char) : DateTimeVerification :=
  match parse cy id with
  | none => ⟨false, false, false, none, none, none, invalidIdMsg⟩
  | some p =>
    if ocr = [] then ⟨false, false, false, none, none, none, noOcrMsg⟩ else
    let oy := extractYear ocr
    let t := extractTime ocr
    let timeMatches :=
      match t with
      | some hm => decide (p.hour = hm.1) && decide (((p.minute : Int) - (hm.2 : Int)).natAbs ≤ 2)
      | none => false
    let overall := timeMatches
    ⟨overall, true, timeMatches, oy, t.map (fun hm => hm.1), t.map (fun hm => hm.2),
     if overall then matchedMsg
     else mismatchMsg p oy (t.map (fun hm => hm.1)) (t.map (fun hm => hm.2))⟩

/-! ### Validation orchestrator (`ValidationService.validateSlip`)

Amounts and the OCR confidence are JS numbers; they are modelled as `ℚ`.
On every reachable score/maxScore pair (both are sums of the fixed point
budgets, so multiples of 5 with maxScore in 85 to 110) the IEEE-double
test `score / maxScore * 100 >= 70` agrees with the exact rational test
`70 * maxScore ≤ 100 * score`: the only boundary pair is 70/100, where
the double product `0.7 * 100` rounds to exactly `70`. -/

structure SlipDateTime where
  rawOCR : Option (List Char)
  time : Option (List Char)
deriving DecidableEq

structure SlipData where
  success : Bool
  transactionId : Option (List Char)
  dateTime : Option SlipDateTime
  amount : Option ℚ
  recipient : Option (List Char)
  ocrConfidence : ℚ
deriving DecidableEq

structure ExpectedData where
  amount : Option ℚ
  recipient : Option (List Char)
deriving DecidableEq

structure ValidationResult where
  valid : Bool
  errors : List (List Char)
  warnings : List (List Char)
  score : Nat
  maxScore : Nat
  fakeSlipDetection : Option FakeSlipResult
  authenticity : Option (List Char)
deriving DecidableEq

/-- Per-check outcome: points scored, points added to the budget, hard
errors pushed, warnings pushed. -/
structure BlockOut where
  pts : Nat
  maxPts : Nat
  errs : List (List Char)
  warns : List (List Char)
deriving DecidableEq

/-- Authenticity credit: full at LOW, partial at MEDIUM, zero at HIGH. -/
def authPoints : RiskLevel → Nat
  | .LOW => 25
  | .MEDIUM => 15
  | .HIGH => 0

def suspiciousWarnMsg (fd : FakeSlipResult) : List Char :=
  "Suspicious indicators: ".data ++ List.intercalate ", ".data fd.reasons

def highRiskErrMsg (fd : FakeSlipResult) : List Char :=
  "High risk fake slip: ".data ++ List.intercalate ", ".data fd.reasons

def authErrsOf (fd : FakeSlipResult) : List (List Char) :=
  if fd.riskLevel = .HIGH then [highRiskErrMsg fd] else []

def authWarnsOf (fd : FakeSlipResult) : List (List Char) :=
  if fd.riskLevel = .MEDIUM then [suspiciousWarnMsg fd] else []

def authLabelOf : RiskLevel → List Char
  | .LOW => "Likely authentic".data
  | .MEDIUM => "Review required".data
  | .HIGH => "High risk of fake".data

/-- JS `parseInt(s, 10)`: skip leading whitespace, optional sign, longest
leading digit run; `none` models NaN. -/
def parseIntJS (s : List Char) : Option Int :=
  match s.dropWhile isWsJS with
  | '-' :: r =>
    if (r.takeWhile isDigitC).isEmpty then none
    else some (-(digitsToNat (r.takeWhile isDigitC) : Int))
  | '+' :: r =>
    if (r.takeWhile isDigitC).isEmpty then none
    else some ((digitsToNat (r.takeWhile isDigitC) : Int))
  | r =>
    if (r.takeWhile isDigitC).isEmpty then none
    else some ((digitsToNat (r.takeWhile isDigitC) : Int))

/-- JS `String.prototype.split(':')` (worker). -/
def splitColonAux : List Char → List Char → List (List Char)
  | [], acc => [acc.reverse]
  | c :: rest, acc =>
    if c = ':' then acc.reverse :: splitColonAux rest [] else splitColonAux rest (c :: acc)

def splitColon (s : List Char) : List (List Char) := splitColonAux s []

structure TimeValidation where
  valid : Bool
  message : List Char
deriving DecidableEq

def noTimeMsg : List Char := "Time not found in slip".data

def badTimeFormatMsg : List Char := "Invalid time format".data

def timeMatchedMsg : List Char := "Time matches between slip and transaction ID".data

def timeMismatchMsg (slipTime transTime : List Char) : List Char :=
  "Time mismatch: Slip shows ".data ++ slipTime ++
  ", transaction ID indicates ".data ++ transTime

/-- `ValidationService.validateTime` (legacy fallback comparison).  NaN
comparisons in JS are false; `none` from `parseIntJS` behaves the same. -/
def validateTime (slip : SlipData) (p : ParsedIdentifier) : TimeValidation :=
  match slip.dateTime with
  | none => ⟨false, noTimeMsg⟩
  | some dt =>
    match dt.time with
    | none => ⟨false, noTimeMsg⟩
    | some st =>
      if st = [] then ⟨false, noTimeMsg⟩ else
      let sp := splitColon st
      let tp := splitColon p.time
      if sp.length < 2 || tp.length < 2 then ⟨false, badTimeFormatMsg⟩ else
      let hourMatch :=
        match parseIntJS (sp.getD 0 []), parseIntJS (tp.getD 0 []) with
        | some a, some b => decide (a = b)
        | _, _ => false
      let minuteMatch :=
        match parseIntJS (sp.getD 1 []), parseIntJS (tp.getD 1 []) with
        | some a, some b => decide ((a - b).natAbs ≤ 2)
        | _, _ => false
      let ok := hourMatch && minuteMatch
      ⟨ok, if ok then timeMatchedMsg else timeMismatchMsg st p.time⟩

def dateMismatchErr : List Char := "Date mismatch between transaction ID and OCR".data

def timeMismatchErr : List Char := "Time mismatch between transaction ID and OCR".data

def legacyTimeBlock (slip : SlipData) (p : ParsedIdentifier) : BlockOut :=
  let tv := validateTime slip p
  if tv.valid then ⟨25, 25, [], []⟩ else ⟨0, 25, [tv.message], []⟩

/-- Time-consistency check: the cross-verifier when a raw OCR timestamp
text is available (truthy), otherwise the legacy comparison. -/
def timeBlock (cy : Nat) (slip : SlipData) (tid : List Char) (p : ParsedIdentifier) : BlockOut :=
  match slip.dateTime with
  | none => legacyTimeBlock slip p
  | some dt =>
    match dt.rawOCR with
    | none => legacyTimeBlock slip p
    | some raw =>
      if raw = [] then legacyTimeBlock slip p else
      let tv := verifyDateTime cy tid raw
      if tv.valid then ⟨25, 25, [], []⟩
      else ⟨0, 25,
            (if tv.dateMatch = false then [dateMismatchErr] else []) ++
            (if tv.timeMatch = false then [timeMismatchErr] else []),
            [tv.message]⟩

def amountNotFoundWarn : List Char := "Amount not found or invalid in slip".data

/-- Number formatting in this message differs from the JS float rendering;
no claim inspects its text. -/
def amountMismatchMsg (e a : ℚ) : List Char :=
  "Amount mismatch: Expected ".data ++ (toString e.num).data ++ "/".data ++ natRepr e.den ++
  " but found ".data ++ (toString a.num).data ++ "/".data ++ natRepr a.den

/-- `ValidationService.validateAmount` with the default tolerance 0.01. -/
def validateAmountOk (a e : ℚ) : Bool := decide (|a - e| ≤ 1 / 100)

def amountBlock (slip : SlipData) (ex : ExpectedData) : BlockOut :=
  match slip.amount with
  | none => ⟨0, 20, [], [amountNotFoundWarn]⟩
  | some a =>
    if !(decide (0 < a)) then ⟨0, 20, [], [amountNotFoundWarn]⟩ else
    match ex.amount with
    | none => ⟨20, 20, [], []⟩
    | some e =>
      if e = 0 then ⟨20, 20, [], []⟩ else
      if validateAmountOk a e then ⟨35, 35, [], []⟩ else ⟨20, 35, [amountMismatchMsg e a], []⟩

/-- `ValidationService.validateRecipient` normalisation:
lower-case then strip whitespace. -/
def normRecipient (s : List Char) : List Char :=
  (s.map lowChar).filter (fun c => !isWsJS c)

def recipientMismatchMsg (e a : List Char) : List Char :=
  "Recipient mismatch: Expected \"".data ++ e ++ "\" but found \"".data ++ a ++ "\"".data

def recipientBlock (slip : SlipData) (ex : ExpectedData) : BlockOut :=
  match ex.recipient, slip.recipient with
  | some e, some a =>
    if e = [] || a = [] then ⟨0, 0, [], []⟩ else
    if occursIn (normRecipient e) (normRecipient a) || occursIn (normRecipient a) (normRecipient e)
    then ⟨10, 10, [], []⟩ else ⟨0, 10, [], [recipientMismatchMsg e a]⟩
  | _, _ => ⟨0, 0, [], []⟩

def ocrLowWarn : List Char := "OCR confidence is below optimal level".data

def ocrPoorWarn : List Char := "Low OCR confidence - results may be unreliable".data

def ocrBlock (slip : SlipData) : BlockOut :=
  if 70 ≤ slip.ocrConfidence then ⟨15, 15, [], []⟩
  else if 50 ≤ slip.ocrConfidence then ⟨10, 15, [], [ocrLowWarn]⟩
  else ⟨0, 15, [], [ocrPoorWarn]⟩

def failedParseSlipMsg : List Char := "Failed to parse slip image".data

def noTidMsg : List Char := "Transaction ID not found in slip".data

def invalidTidMsg (reason : List Char) : List Char := "Invalid transaction ID: ".data ++ reason

def emptyResult (errs : List (List Char)) : ValidationResult := ⟨false, errs, [], 0, 0, none, none⟩

/-- `ValidationService.validateSlip(slipData, expectedData)`. -/
def validateSlip (cy : Nat) (slip : SlipData) (ex : ExpectedData) : ValidationResult :=
  if !slip.success then emptyResult [failedParseSlipMsg] else
  match slip.transactionId with
  | none => emptyResult [noTidMsg]
  | some tid =>
    if tid = [] then emptyResult [noTidMsg] else
    let v := isValid cy tid
    if !v.valid then emptyResult [invalidTidMsg v.reason] else
    match v.parsed with
    | none => emptyResult [invalidTidMsg v.reason]
    | some p =>
      let fd := detectFakeSlip cy tid
      let tb := timeBlock cy slip tid p
      let ab := amountBlock slip ex
      let rb := recipientBlock slip ex
      let ob := ocrBlock slip
      let errors := authErrsOf fd ++ tb.errs ++ ab.errs ++ rb.errs ++ ob.errs
      let warnings := authWarnsOf fd ++ tb.warns ++ ab.warns ++ rb.warns ++ ob.warns
      let score := authPoints fd.riskLevel + tb.pts + ab.pts + rb.pts + ob.pts
      let maxScore := 25 + tb.maxPts + ab.maxPts + rb.maxPts + ob.maxPts
      ⟨decide (errors = []) && decide (70 * maxScore ≤ 100 * score),
       errors, warnings, score, maxScore, some fd, some (authLabelOf fd.riskLevel)⟩

/-! ### Character normalizer (`OCRService.cleanOCRText`)

The substitution table, in object insertion order (all keys are
non-integer strings, so `Object.entries` preserves it).  No key contains
a regex metacharacter, so each `new RegExp(wrong, 'g')` is a literal
global replacement. -/

def ocrFixes : List (List Char × List Char) :=
  [("/เว".data, "APM".data),
   ("/เอที".data, "ATF".data),
   ("/เอ".data, "A".data),
   ("/บี".data, "B".data),
   ("เวม".data, "APM".data),
   ("เว".data, "APM".data),
   ("เอที".data, "ATF".data),
   ("บีคิว".data, "BQ".data),
   ("บีคิวอาร์".data, "BQR".data),
   ("บีพี".data, "BP".data),
   ("ดู".data, "QR".data),
   ("ดูอาร์".data, "QR".data),
   ("เอ".data, "A".data),
   ("บี".data, "B".data),
   ("ซี".data, "C".data),
   ("ดี".data, "D".data),
   ("อี".data, "E".data),
   ("เอฟ".data, "F".data),
   ("จี".data, "G".data),
   ("เอช".data, "H".data),
   ("ไอ".data, "I".data),
   ("เจ".data, "J".data),
   ("เค".data, "K".data),
   ("แอล".data, "L".data),
   ("เอ็ม".data, "M".data),
   ("เอ็น".data, "N".data),
   ("โอ".data, "O".data),
   ("พี".data, "P".data),
   ("คิว".data, "Q".data),
   ("อาร์".data, "R".data),
   ("เอส".data, "S".data),
   ("ที".data, "T".data),
   ("ยู".data, "U".data),
   ("วี".data, "V".data),
   ("ดับเบิลยู".data, "W".data),
   ("เอ็กซ์".data, "X".data),
   ("วาย".data, "Y".data),
   ("แซด".data, "Z".data),
   ("เเอ".data, "A".data),
   ("๐".data, "0".data),
   ("๑".data, "1".data),
   ("๒".data, "2".data),
   ("๓".data, "3".data),
   ("๔".data, "4".data),
   ("๕".data, "5".data),
   ("๖".data, "6".data),
   ("๗".data, "7".data),
   ("๘".data, "8".data),
   ("๙".data, "9".data)]

/-- `OCRService.cleanOCRText(text)`. -/
def cleanOCRText (s : List Char) : List Char := applyFixes ocrFixes s

/-- Characters that may appear in a substitution key: the slash and the
Thai block.  Every key is made of these; no replacement value contains
one.  This separation is what makes the table idempotent. -/
def keyChar (c : Char) : Bool :=
  decide (c = '/') || (decide (0xE00 ≤ c.toNat) && decide (c.toNat ≤ 0xE7F))

/-- A well-formed table entry: nonempty key of key-characters, nonempty
replacement free of key-characters. -/
def goodPair (p : List Char × List Char) : Prop :=
  p.1 ≠ [] ∧ p.1.all keyChar = true ∧ p.2 ≠ [] ∧ p.2.all (fun c => !keyChar c) = true

instance (p : List Char × List Char) : Decidable (goodPair p) := by
  unfold goodPair
  infer_instance

/-! ### Identifier repair engine (`OCRService.fixTransactionIdOCRErrors`) -/

/-- The Thai-to-English table applied before the positional rules. -/
def thaiToEnglish : List (List Char × List Char) :=
  [("ดู".data, "QR".data),
   ("คิว".data, "Q".data),
   ("อาร์".data, "R".data),
   ("บี".data, "B".data),
   ("เอ".data, "A".data),
   ("ที".data, "T".data),
   ("เอฟ".data, "F".data),
   ("พี".data, "P".data),
   ("เอ็ม".data, "M".data),
   ("โอ".data, "O".data)]

/-- The character class `[ก-๙]` stripped by the repair engine
(U+0E01 to U+0E59; every key of `thaiToEnglish` lies inside it). -/
def inThaiStripRange (c : Char) : Bool :=
  decide (0xE01 ≤ c.toNat) && decide (c.toNat ≤ 0xE59)

/-- The `cleaned` value of the repair engine: Thai-to-English
replacements, then removal of remaining `[ก-๙]` characters. -/
def thaiCleaned (s : List Char) : List Char :=
  (applyFixes thaiToEnglish s).filter (fun c => !inThaiStripRange c)

/-- Anchored match of `/^(0152\d{8})(8QR[08]0?)(\d{4,5})$/`, greedy on the
optional zero; yields the first and third groups. -/
def bqrSplit (c : List Char) : Option (List Char × List Char) :=
  if startsWithL prefixK c && ((c.drop 4).take 8).all isDigitC && decide (12 ≤ c.length) &&
     decide (c.getD 12 ' ' = '8') && decide (c.getD 13 ' ' = 'Q') && decide (c.getD 14 ' ' = 'R') &&
     (decide (c.getD 15 ' ' = '0') || decide (c.getD 15 ' ' = '8')) then
    if decide (c.getD 16 ' ' = '0') && (decide (c.length = 21) || decide (c.length = 22)) &&
       (c.drop 17).all isDigitC then
      some (c.take 12, c.drop 17)
    else if (decide (c.length = 20) || decide (c.length = 21)) && (c.drop 16).all isDigitC then
      some (c.take 12, c.drop 16)
    else none
  else none

/-- Line terminators, which `.` does not match. -/
def notLineTermC (c : Char) : Bool :=
  !(decide (c = '\n') || decide (c = '\r') || decide (c.toNat = 0x2028) || decide (c.toNat = 0x2029))

def genPreOk (c : List Char) : Bool :=
  decide (12 ≤ c.length) && startsWithL prefixK c && ((c.drop 4).take 8).all isDigitC

/-- Whether `/^(0152\d{8})(.{2,7}?)(\d{3,5})$/` matches with a middle of
width `m`: the suffix width is forced by the anchors and must be three to
five digits. -/
def genTry (c : List Char) (m : Nat) : Bool :=
  decide (12 + m + 3 ≤ c.length) && decide (c.length ≤ 12 + m + 5) &&
  ((c.drop 12).take m).all notLineTermC && (c.drop (12 + m)).all isDigitC

/-- The lazy `.{2,7}?` takes the smallest middle width that lets the rest
of the anchored pattern match. -/
def genSplit (c : List Char) : Option (List Char × List Char × List Char) :=
  if genPreOk c then
    match [2, 3, 4, 5, 6, 7].find? (fun m => genTry c m) with
    | some m => some (c.take 12, (c.drop 12).take m, c.drop (12 + m))
    | none => none
  else none

/-- The `numberToLetter` confusion table; characters without an entry
(such as 9) pass through. -/
def numToLetter (c : Char) : Char :=
  if c = '0' then 'O' else if c = '1' then 'I' else if c = '3' then 'B' else
  if c = '4' then 'A' else if c = '5' then 'S' else if c = '6' then 'F' else
  if c = '7' then 'T' else if c = '8' then 'B' else if c = '2' then 'Z' else c

def knownCodes : List (List Char) :=
  ["ATF0".data, "ATF".data, "APM0".data, "APM".data, "BQR0".data,
   "BQR".data, "BPMO".data, "TRF".data, "PMT".data, "BIL".data]

def lastC (l : List Char) : Char := l.getD (l.length - 1) ' '

/-- The all-digits middle branch; `some` is a fired rule, `none` means the
branch did not apply or fell through. -/
def digitRule (mid : List Char) : Option (List Char) :=
  if !(mid.all isDigitC && decide (2 ≤ mid.length) && decide (mid.length ≤ 4)) then none
  else
    let recon := (mid.map numToLetter).map upChar
    if decide (mid.length = 4) && decide (mid.getD 0 ' ' = '8') && decide (mid.getD 3 ' ' = '8') then
      some "BQR0".data
    else if decide (mid = "8008".data) || decide (mid = "8080".data) then some "BQR0".data
    else if decide (mid = "816".data) || decide (mid = "8160".data) then some "ATF0".data
    else if decide (mid.getD 0 ' ' = '8') && decide (3 ≤ mid.length) && decide (mid.length = 4) &&
            isDigitC (mid.getD 1 ' ') && isDigitC (mid.getD 2 ' ') && decide (mid.getD 3 ' ' = '0') then
      some "BQR0".data
    else if decide (mid.getD 0 ' ' = '8') && decide (3 ≤ mid.length) &&
            (decide (mid = "8TF".data) || decide (mid = "8T6".data) || decide (mid = "816".data)) then
      some "ATF0".data
    else if decide (mid.getD 0 ' ' = '8') && decide (3 ≤ mid.length) &&
            (decide (mid = "8PM".data) ||
             (decide (mid.length = 3) && decide (mid.getD 1 ' ' = 'P') && isDigitC (mid.getD 2 ' '))) then
      some "APM0".data
    else
      match knownCodes.find? (fun code => decide (recon = code) || startsWithL (code.take 3) recon) with
      | some code => some code
      | none =>
        if decide (mid.length = 4) && decide (lastC mid = '0') then some recon else none

def hasUpperC (l : List Char) : Bool := l.any isUpperC

def interiorOf (l : List Char) : List Char := (l.drop 1).take (l.length - 2)

/-- Test of `/^8[A-Z]+8$/`. -/
def mixedPat8 (mid : List Char) : Bool :=
  decide (3 ≤ mid.length) && decide (mid.getD 0 ' ' = '8') && decide (lastC mid = '8') &&
  (interiorOf mid).all isUpperC

/-- Test of `/^8[A-Z]+0$/`. -/
def mixedPat0 (mid : List Char) : Bool :=
  decide (3 ≤ mid.length) && decide (mid.getD 0 ' ' = '8') && decide (lastC mid = '0') &&
  (interiorOf mid).all isUpperC

/-- The rule ladder applied once the general split succeeded.  The mixed
branch always returns; with neither of its two patterns it returns the
unmodified `prefix + middle + suffix`, which is `cleaned` itself. -/
def fixAfterSplit (pre mid suf cleaned : List Char) : List Char :=
  if mid = "8QR8".data then pre ++ "BQR0".data ++ suf
  else if mid = "8QR0".data then pre ++ "BQR0".data ++ suf
  else
    match digitRule mid with
    | some r => pre ++ r ++ suf
    | none =>
      if hasUpperC mid && decide (3 ≤ mid.length) && decide (mid.length ≤ 4) then
        if mixedPat8 mid then pre ++ (['B'] ++ interiorOf mid ++ ['0']) ++ suf
        else if mixedPat0 mid then pre ++ (['B'] ++ mid.drop 1) ++ suf
        else pre ++ mid ++ suf
      else cleaned

/-- `OCRService.fixTransactionIdOCRErrors(transactionId)`. -/
def fixTransactionIdOCRErrors (s : List Char) : List Char :=
  if s.length < 20 then s else
  let cleaned := thaiCleaned s
  match bqrSplit cleaned with
  | some pr => pr.1 ++ "BQR0".data ++ pr.2
  | none =>
    match genSplit cleaned with
    | some g => fixAfterSplit g.1 g.2.1 g.2.2 cleaned
    | none => cleaned

/-- Whether any positional/contextual repair rule fires on the candidate,
that is, whether the engine returns anything other than the pass-through
`cleaned` value.  The mixed branch without one of its two patterns
reassembles the unmodified split, so it is not a fired rule. -/
def midRuleFires (mid : List Char) : Bool :=
  decide (mid = "8QR8".data) || decide (mid = "8QR0".data) || (digitRule mid).isSome ||
  (hasUpperC mid && decide (3 ≤ mid.length) && decide (mid.length ≤ 4) &&
   (mixedPat8 mid || mixedPat0 mid))

def ruleFires (s : List Char) : Bool :=
  (bqrSplit (thaiCleaned s)).isSome ||
  (match genSplit (thaiCleaned s) with
   | some g => midRuleFires g.2.1
   | none => false)

/-- No character of the candidate lies in the stripped Thai range (then
the Thai pre-cleaning of the repair engine is the identity). -/
def noThaiChars (s : List Char) : Bool := s.all (fun c => !inThaiStripRange c)

/-- A placeholder record, used only to state concrete witness instances
via `Option.getD`. -/
def defaultParsed : ParsedIdentifier :=
  ⟨[], 0, [], [], 0, 0, 0, [], [], false, [], 0⟩

/-- A concrete slip-data value used in witness instances. -/
def slipW : SlipData :=
  ⟨true, some "015298170819BQR02651".data,
   some ⟨some "25 ต.ค. 68 17:08 น.".data, some "17:08".data⟩,
   some 15, some "John".data, 80⟩

/-- A concrete expected-data value used in witness instances. -/
def expW : ExpectedData := ⟨none, none⟩

/-! ## Theorems -/

def lowAlpha : List Char := ['a', 'b', 'c', 'd', 'e', 'f', 'g', 'h', 'i', 'j', 'k', 'l', 'm', 'n', 'o', 'p', 'q', 'r', 's', 't', 'u', 'v', 'w', 'x', 'y', 'z']

theorem upChar_eq_self (c : Char) (h : c ∉ lowAlpha) : upChar c = c := by
  simp only [lowAlpha, List.mem_cons, List.not_mem_nil, or_false, not_or] at h
  obtain ⟨h1, h2, h3, h4, h5, h6, h7, h8, h9, h10, h11, h12, h13, h14, h15, h16, h17, h18, h19, h20, h21, h22, h23, h24, h25, h26⟩ := h
  unfold upChar
  rw [if_neg h1, if_neg h2, if_neg h3, if_neg h4, if_neg h5, if_neg h6, if_neg h7, if_neg h8, if_neg h9, if_neg h10, if_neg h11, if_neg h12, if_neg h13, if_neg h14, if_neg h15, if_neg h16, if_neg h17, if_neg h18, if_neg h19, if_neg h20, if_neg h21, if_neg h22, if_neg h23, if_neg h24, if_neg h25, if_neg h26]

theorem upChar_cases (c : Char) : c ∈ lowAlpha ∨ upChar c = c := by
  by_cases h : c ∈ lowAlpha
  · exact Or.inl h
  · exact Or.inr (upChar_eq_self c h)

theorem upChar_idem (c : Char) : upChar (upChar c) = upChar c := by
  rcases upChar_cases c with h | h
  · simp only [lowAlpha, List.mem_cons, List.not_mem_nil, or_false] at h
    rcases h with rfl|rfl|rfl|rfl|rfl|rfl|rfl|rfl|rfl|rfl|rfl|rfl|rfl|rfl|rfl|rfl|rfl|rfl|rfl|rfl|rfl|rfl|rfl|rfl|rfl|rfl <;> decide
  · rw [h, h]

theorem isWsJS_upChar (c : Char) : isWsJS (upChar c) = isWsJS c := by
  rcases upChar_cases c with h | h
  · simp only [lowAlpha, List.mem_cons, List.not_mem_nil, or_false] at h
    rcases h with rfl|rfl|rfl|rfl|rfl|rfl|rfl|rfl|rfl|rfl|rfl|rfl|rfl|rfl|rfl|rfl|rfl|rfl|rfl|rfl|rfl|rfl|rfl|rfl|rfl|rfl <;> decide
  · rw [h]

theorem cleanId_idem (s : List Char) : cleanId (cleanId s) = cleanId s := by
  unfold cleanId
  rw [List.filter_map]
  have h1 : (fun c => !isWsJS c) ∘ upChar = fun c => !isWsJS c := by
    funext c
    simp [Function.comp, isWsJS_upChar]
  rw [h1, List.filter_filter]
  have h2 : (fun a => (!isWsJS a) && !isWsJS a) = fun c => !isWsJS c := by
    funext c
    cases isWsJS c <;> rfl
  rw [h2, List.map_map]
  have h3 : upChar ∘ upChar = upChar := by
    funext c
    exact upChar_idem c
  rw [h3]

theorem lenOk_iff (c : List Char) : lenOk c = true ↔ (c.length = 20 ∨ c.length = 21) := by
  unfold lenOk
  rw [Bool.and_eq_true, decide_eq_true_iff, decide_eq_true_iff]
  omega

theorem timeOk_iff (c : List Char) :
    timeOk c = true ↔ (hourOf c ≤ 23 ∧ minuteOf c ≤ 59 ∧ secondOf c ≤ 59) := by
  unfold timeOk
  simp [Bool.and_eq_true, decide_eq_true_iff, and_assoc]

theorem yearOk_iff (cy : Nat) (c : List Char) :
    yearOk cy c = true ↔ (cy ≤ yearOf c + 5 ∧ yearOf c ≤ cy + 1) := by
  unfold yearOk
  simp [Bool.and_eq_true, decide_eq_true_iff]

/-- The success condition of `parse`, as one boolean formula. -/
theorem parse_isSome_eq (cy : Nat) (id : List Char) :
    (parse cy id).isSome =
      (!decide (id = []) && (startsWithL prefixK (cleanId id) &&
       (lenOk (cleanId id) && (strictOk (cleanId id) &&
       (timeOk (cleanId id) && yearOk cy (cleanId id)))))) := by
  unfold parse
  split_ifs with h0 h1 h2 h3 h4 h5 <;> simp_all

/-- A successful `parse` returns exactly the record built from the
cleaned identifier. -/
theorem parse_eq_some (cy : Nat) (id : List Char) (p : ParsedIdentifier)
    (h : parse cy id = some p) : p = mkParsed (cleanId id) := by
  unfold parse at h
  split_ifs at h <;> simp_all

/-- Cleaning is idempotent, so `parse` applied to an already cleaned
identifier (as `isValid` does) agrees with `parse` on the original. -/
theorem parse_cleanId (cy : Nat) (id : List Char) (h : id ≠ []) :
    parse cy (cleanId id) = parse cy id := by
  by_cases hc : cleanId id = []
  · unfold parse
    rw [hc]
    simp [h, cleanId, startsWithL, prefixK]
  · unfold parse
    rw [cleanId_idem]
    simp [h, hc]

/-- C1.  `parse` returns a record exactly when the cleaned input (trimmed,
whitespace-stripped, upper-cased) starts with the literal prefix 0152, has
total length 20 or 21, matches the fixed-width grammar (prefix, 2-digit
year code, hour, minute, second, 4-character alphanumeric type code,
3-to-5-digit sequence), has hour at most 23, minute and second at most 59,
and has year `yearCode + 2470` within `[currentYear - 5, currentYear + 1]`;
an unknown type code is not a failure, it only yields
`isKnownType = false` and the Unknown description. -/
theorem parse_grammar_characterization (cy : Nat) (id : List Char) :
    ((parse cy id).isSome = true ↔
      (startsWithL prefixK (cleanId id) = true ∧
       ((cleanId id).length = 20 ∨ (cleanId id).length = 21) ∧
       strictOk (cleanId id) = true ∧
       hourOf (cleanId id) ≤ 23 ∧ minuteOf (cleanId id) ≤ 59 ∧ secondOf (cleanId id) ≤ 59 ∧
       cy ≤ yearOf (cleanId id) + 5 ∧ yearOf (cleanId id) ≤ cy + 1)) ∧
    (∀ p, parse cy id = some p → p.isKnownType = false →
       p.typeDescription = "Unknown Transaction Type".data) := by
  constructor
  · rw [show ((parse cy id).isSome = true) = ((!decide (id = []) &&
      (startsWithL prefixK (cleanId id) && (lenOk (cleanId id) && (strictOk (cleanId id) &&
      (timeOk (cleanId id) && yearOk cy (cleanId id)))))) = true) from
      congrArg (· = true) (parse_isSome_eq cy id)]
    by_cases h0 : id = []
    · subst h0
      simp [cleanId, startsWithL, prefixK]
    · simp only [h0, decide_eq_false_iff_not, not_false_eq_true, decide_eq_true_eq,
        Bool.not_eq_true', Bool.and_eq_true, lenOk_iff, timeOk_iff, yearOk_iff]
      simp [h0]
      tauto
  · intro p hp hk
    have hpm : p = mkParsed (cleanId id) := parse_eq_some cy id p hp
    subst hpm
    simp only [mkParsed] at hk ⊢
    unfold lookupType
    cases hfind : findType (typeStr (cleanId id)) with
    | none => rfl
    | some d =>
      rw [hfind] at hk
      simp at hk

/-- Witness for C1 at a concrete unknown-type identifier. -/
theorem parse_grammar_characterization_witness :
    (parse 2568 "015298170819ZZZZ2651".data).isSome = true ∧
    ((parse 2568 "015298170819ZZZZ2651".data).getD defaultParsed).typeDescription =
      "Unknown Transaction Type".data :=
  ⟨(parse_grammar_characterization 2568 "015298170819ZZZZ2651".data).1.mpr (by decide),
   (parse_grammar_characterization 2568 "015298170819ZZZZ2651".data).2
     ((parse 2568 "015298170819ZZZZ2651".data).getD defaultParsed) (by decide) (by decide)⟩

theorem isValid_valid_eq_parse (cy : Nat) (id : List Char) :
    (isValid cy id).valid = (parse cy id).isSome := by
  by_cases h0 : id = []
  · subst h0
    simp [isValid, parse]
  · unfold isValid
    rw [if_neg h0]
    have hq := parse_cleanId cy id h0
    split_ifs with h1 h2 h3
    · simp only [Bool.not_eq_true'] at h1
      simp [parse_isSome_eq, h0, h1]
    · simp only [Bool.not_eq_true'] at h2
      simp [parse_isSome_eq, h0, h2]
    · simp only [Bool.not_eq_true'] at h3
      simp [parse_isSome_eq, h0, h3]
    · cases hp : parse cy (cleanId id) with
      | none =>
        rw [hq] at hp
        simp [hp]
      | some p =>
        rw [hq] at hp
        simp [hp]

/-- C2 (amended).  `parse` succeeds exactly when `isValid` reports valid;
for every nonempty input, the reason names the first failing check in the
priority order prefix, length, pattern, semantic parse.  (For the empty
string the presence guard of the source precedes the prefix check and
yields its own reason.) -/
theorem validator_agreement_and_reason (cy : Nat) (id : List Char) :
    ((parse cy id).isSome = (isValid cy id).valid) ∧
    (id ≠ [] →
      (startsWithL prefixK (cleanId id) = false →
         (isValid cy id).reason = prefixMsg (cleanId id)) ∧
      (startsWithL prefixK (cleanId id) = true → lenOk (cleanId id) = false →
         (isValid cy id).reason = lengthMsg (cleanId id)) ∧
      (startsWithL prefixK (cleanId id) = true → lenOk (cleanId id) = true →
         strictOk (cleanId id) = false → (isValid cy id).reason = patternMsg) ∧
      (startsWithL prefixK (cleanId id) = true → lenOk (cleanId id) = true →
         strictOk (cleanId id) = true → parse cy id = none →
         (isValid cy id).reason = parseFailMsg)) := by
  refine ⟨(isValid_valid_eq_parse cy id).symm, fun h0 => ⟨?_, ?_, ?_, ?_⟩⟩
  · intro hpre
    simp [isValid, h0, hpre]
  · intro hpre hlen
    simp [isValid, h0, hpre, hlen]
  · intro hpre hlen hstrict
    simp [isValid, h0, hpre, hlen, hstrict]
  · intro hpre hlen hstrict hp
    unfold isValid
    rw [if_neg h0, parse_cleanId cy id h0, hp]
    simp [hpre, hlen, hstrict]

/-- Witness for the amended C2 at a wrong-prefix identifier. -/
theorem validator_agreement_witness :
    (isValid 2568 "015398170819BQR02651".data).reason =
      prefixMsg (cleanId "015398170819BQR02651".data) :=
  ((validator_agreement_and_reason 2568 "015398170819BQR02651".data).2
    (by decide)).1 (by decide)

/-- C2 counterexample: on the empty string (a string, for which the first
failing check among prefix, length, pattern, semantic parse is the prefix
check) the validator reports the presence-guard reason instead of the
prefix reason, so the stated reason-priority property fails there. -/
theorem validator_reason_counterexample :
    (isValid 2568 []).valid = false ∧
    startsWithL prefixK (cleanId []) = false ∧
    (isValid 2568 []).reason ≠ prefixMsg (cleanId []) := by
  refine ⟨rfl, rfl, ?_⟩
  decide

theorem parse_eq_none_of_pre (cy : Nat) (id : List Char)
    (h : startsWithL prefixK (cleanId id) = false) : parse cy id = none := by
  unfold parse
  simp [h]

theorem parse_eq_none_of_len (cy : Nat) (id : List Char)
    (h : lenOk (cleanId id) = false) : parse cy id = none := by
  unfold parse
  simp [h]

theorem parse_eq_none_of_strict (cy : Nat) (id : List Char)
    (h : strictOk (cleanId id) = false) : parse cy id = none := by
  unfold parse
  simp [h]

theorem isValid_parsed_eq (cy : Nat) (id : List Char) :
    (isValid cy id).parsed = parse cy id := by
  by_cases h0 : id = []
  · subst h0
    simp [isValid, parse]
  · have hq := parse_cleanId cy id h0
    unfold isValid
    rw [if_neg h0]
    split_ifs with h1 h2 h3
    · simp only [Bool.not_eq_true'] at h1
      rw [parse_eq_none_of_pre cy id h1]
    · simp only [Bool.not_eq_true'] at h2
      rw [parse_eq_none_of_len cy id h2]
    · simp only [Bool.not_eq_true'] at h3
      rw [parse_eq_none_of_strict cy id h3]
    · cases hp : parse cy (cleanId id) with
      | none =>
        rw [hq] at hp
        simp [hp]
      | some p =>
        rw [hq] at hp
        simp [hp]

/-- The year range enforced by `parse` bounds the embedded year by the
current year plus one. -/
theorem parse_year_le (cy : Nat) (id : List Char) (p : ParsedIdentifier)
    (hp : parse cy id = some p) : p.year ≤ cy + 1 := by
  have h1 : (parse cy id).isSome = true := by rw [hp]; rfl
  rw [parse_isSome_eq] at h1
  simp only [Bool.and_eq_true, yearOk_iff] at h1
  have h2 := parse_eq_some cy id p hp
  subst h2
  simpa [mkParsed] using h1.2.2.2.2.2.2

/-- On a successfully parsed identifier, `detectFakeSlip` is the valid
branch evaluated on the parsed record. -/
theorem detectFakeSlip_eq (cy : Nat) (id : List Char) (p : ParsedIdentifier)
    (hp : parse cy id = some p) :
    detectFakeSlip cy id =
      ⟨!(riskChecks cy p).2.isEmpty,
       (if 2 < (riskChecks cy p).2.length then RiskLevel.HIGH else (riskChecks cy p).1),
       (riskChecks cy p).2,
       recommendOf (if 2 < (riskChecks cy p).2.length then RiskLevel.HIGH else (riskChecks cy p).1),
       some p⟩ := by
  have hv : (isValid cy id).valid = true := by
    rw [isValid_valid_eq_parse, hp]
    rfl
  have hpd : (isValid cy id).parsed = some p := by rw [isValid_parsed_eq, hp]
  unfold detectFakeSlip
  simp [hv, hpd]

/-- C3.  Within one assessment (a single current year) of a structurally
valid identifier, the running risk level never decreases as the four
heuristic checks and the final forcing rule are applied in order; in
particular adding any one triggering condition to an otherwise LOW-risk
identifier never lowers the result (LOW is the least level). -/
theorem risk_level_monotone (cy : Nat) (id : List Char) (p : ParsedIdentifier)
    (hp : parse cy id = some p) :
    rLe .LOW (riskState1 p).1 ∧
    rLe (riskState1 p).1 (riskState2 p).1 ∧
    rLe (riskState2 p).1 (riskState3 cy p).1 ∧
    rLe (riskState3 cy p).1 (riskState4 cy p).1 ∧
    rLe (riskState4 cy p).1 (detectFakeSlip cy id).riskLevel := by
  have hy := parse_year_le cy id p hp
  have hfut : ¬ (cy + 1 < p.year) := by omega
  rw [detectFakeSlip_eq cy id p hp]
  unfold riskChecks riskState4 riskState3 riskState2 riskState1
  unfold riskStep1 riskStep2 riskStep3 riskStep4
  split_ifs <;> simp_all [rLe, RiskLevel.toNat]

/-- Witness for C3 at a concrete LOW-risk identifier. -/
theorem risk_level_monotone_witness :
    rLe (riskState4 2568 ((parse 2568 "015298170819BQR02651".data).getD defaultParsed)).1
        (detectFakeSlip 2568 "015298170819BQR02651".data).riskLevel :=
  (risk_level_monotone 2568 "015298170819BQR02651".data
    ((parse 2568 "015298170819BQR02651".data).getD defaultParsed) (by decide)).2.2.2.2

/-- C4.  For a structurally valid identifier: three or more accumulated
reasons force the final level to HIGH, and the recommendation is the pure
function `recommendOf` of the final level (LOW accept, MEDIUM manual
review, HIGH reject). -/
theorem risk_final_rule (cy : Nat) (id : List Char)
    (hv : (isValid cy id).valid = true) :
    (3 ≤ (detectFakeSlip cy id).reasons.length →
       (detectFakeSlip cy id).riskLevel = .HIGH) ∧
    (detectFakeSlip cy id).recommendation = recommendOf (detectFakeSlip cy id).riskLevel := by
  have hsome : (parse cy id).isSome = true := by
    rw [← isValid_valid_eq_parse]
    exact hv
  obtain ⟨p, hp⟩ := Option.isSome_iff_exists.mp hsome
  rw [detectFakeSlip_eq cy id p hp]
  by_cases hlen : 2 < (riskChecks cy p).2.length
  · simp [hlen]
  · rw [if_neg hlen]
    constructor
    · intro h3
      simp only at h3
      omega
    · rfl

/-- Witness for C4: a forcing instance with four reasons and a
recommendation instance on a LOW identifier. -/
theorem risk_final_rule_witness :
    (detectFakeSlip 2568 "015293000000ZZZZ1111".data).riskLevel = .HIGH ∧
    (detectFakeSlip 2568 "015298170819BQR02651".data).recommendation =
      recommendOf (detectFakeSlip 2568 "015298170819BQR02651".data).riskLevel :=
  ⟨(risk_final_rule 2568 "015293000000ZZZZ1111".data (by decide)).1 (by decide),
   (risk_final_rule 2568 "015298170819BQR02651".data (by decide)).2⟩

theorem futureMsg_ne_unknownMsg (y : Nat) (ty : List Char) :
    futureYearMsg y ≠ unknownTypeMsg ty := by
  intro h
  unfold futureYearMsg unknownTypeMsg at h
  have h1 := congrArg (fun l => l.take 1) h
  simp only [List.append_assoc] at h1
  rw [List.take_append_of_le_length (by decide),
      List.take_append_of_le_length (by decide)] at h1
  exact absurd h1 (by decide)

theorem futureMsg_ne_repetitiveMsg (y : Nat) : futureYearMsg y ≠ repetitiveMsg := by
  intro h
  unfold futureYearMsg repetitiveMsg at h
  have h1 := congrArg (fun l => l.take 1) h
  simp only [List.append_assoc] at h1
  rw [List.take_append_of_le_length (by decide)] at h1
  exact absurd h1 (by decide)

theorem futureMsg_ne_midnightMsg (y : Nat) : futureYearMsg y ≠ midnightMsg := by
  intro h
  unfold futureYearMsg midnightMsg at h
  have h1 := congrArg (fun l => l.take 13) h
  simp only [List.append_assoc] at h1
  rw [List.take_append_of_le_length (by decide)] at h1
  exact absurd h1 (by decide)

theorem futureMsg_ne_oldMsg (y : Nat) : futureYearMsg y ≠ oldYearMsg y := by
  intro h
  unfold futureYearMsg oldYearMsg at h
  simp only [List.append_assoc] at h
  have h1 := List.append_cancel_left h
  have h2 := List.append_cancel_left h1
  exact absurd h2 (by decide)

/-- C10.  With `parse` and `detectFakeSlip` evaluated at the same current
year, the future-year branch of the scorer is unreachable: a successfully
parsed identifier has year at most `currentYear + 1` (so the branch guard
is false), and the future-year reason never appears in the reasons list. -/
theorem future_branch_unreachable (cy : Nat) (id : List Char) (p : ParsedIdentifier)
    (hp : parse cy id = some p) :
    ¬ (cy + 1 < p.year) ∧
    futureYearMsg p.year ∉ (detectFakeSlip cy id).reasons := by
  have hy := parse_year_le cy id p hp
  have hfut : ¬ (cy + 1 < p.year) := by omega
  refine ⟨hfut, ?_⟩
  rw [detectFakeSlip_eq cy id p hp]
  have n1 := futureMsg_ne_unknownMsg p.year p.type
  have n2 := futureMsg_ne_repetitiveMsg p.year
  have n3 := futureMsg_ne_midnightMsg p.year
  have n4 := futureMsg_ne_oldMsg p.year
  unfold riskChecks riskStep1 riskStep2 riskStep3 riskStep4
  split_ifs <;> simp_all

/-- Witness for C10 at a concrete parsed identifier. -/
theorem future_branch_unreachable_witness :
    futureYearMsg ((parse 2568 "015298170819BQR02651".data).getD defaultParsed).year ∉
      (detectFakeSlip 2568 "015298170819BQR02651".data).reasons :=
  (future_branch_unreachable 2568 "015298170819BQR02651".data
    ((parse 2568 "015298170819BQR02651".data).getD defaultParsed) (by decide)).2

/-- C5.  If `parse` fails, `verifyDateTime` returns the fixed non-matching
record (valid and timeMatch false) carrying only the explanatory message,
with no comparison performed; if `parse` succeeds and the secondary text
yields an hour:minute pair, `timeMatch` holds exactly when the parsed hour
equals the extracted hour and the minutes differ by at most two; the year
fields are never compared — `dateMatch` is true whenever the comparison
path runs at all. -/
theorem verifyDateTime_policy (cy : Nat) (id ocr : List Char) :
    (parse cy id = none →
       verifyDateTime cy id ocr = ⟨false, false, false, none, none, none, invalidIdMsg⟩) ∧
    (∀ p, parse cy id = some p → ocr ≠ [] →
       (verifyDateTime cy id ocr).dateMatch = true) ∧
    (∀ p h m, parse cy id = some p → extractTime ocr = some (h, m) →
       ((verifyDateTime cy id ocr).timeMatch = true ↔
         (p.hour = h ∧ ((p.minute : Int) - (m : Int)).natAbs ≤ 2))) := by
  refine ⟨?_, ?_, ?_⟩
  · intro hp
    unfold verifyDateTime
    rw [hp]
  · intro p hp hocr
    unfold verifyDateTime
    rw [hp]
    simp [hocr]
  · intro p h m hp ht
    have hocr : ocr ≠ [] := by
      intro he
      rw [he] at ht
      simp [extractTime] at ht
    unfold verifyDateTime
    rw [hp]
    simp [hocr, ht]

/-- Witness for C5: the parse-failure record at a bad identifier, and the
tolerance equivalence at the canonical identifier against a matching
secondary text. -/
theorem verifyDateTime_policy_witness :
    verifyDateTime 2568 "0153".data "17:08".data =
      ⟨false, false, false, none, none, none, invalidIdMsg⟩ ∧
    ((verifyDateTime 2568 "015298170819BQR02651".data "25 ต.ค. 68 17:08 น.".data).timeMatch = true ↔
      (((parse 2568 "015298170819BQR02651".data).getD defaultParsed).hour = 17 ∧
       ((((parse 2568 "015298170819BQR02651".data).getD defaultParsed).minute : Int) -
         ((8 : Nat) : Int)).natAbs ≤ 2)) :=
  ⟨(verifyDateTime_policy 2568 "0153".data "17:08".data).1 (by decide),
   (verifyDateTime_policy 2568 "015298170819BQR02651".data
     "25 ต.ค. 68 17:08 น.".data).2.2
     ((parse 2568 "015298170819BQR02651".data).getD defaultParsed) 17 8
     (by decide) (by decide)⟩

/-- C6 counterexample: the identifier parses to time 17:08:19, the
secondary text contains 17:11 (extracted as such), and the cross-verifier
reports `timeMatch` FALSE — the minute difference is three, outside the
two-minute tolerance, contrary to the claimed `timeMatch:true`. -/
theorem crosscheck_tolerance_counterexample :
    extractTime "25 ต.ค. 68 17:11 น.".data = some (17, 11) ∧
    ((parse 2568 "015298170819BQR02651".data).getD defaultParsed).minute = 8 ∧
    (verifyDateTime 2568 "015298170819BQR02651".data
      "25 ต.ค. 68 17:11 น.".data).timeMatch = false := by
  decide

/-- C6 (amended).  For the identifier parsing to 17:08:19 (current year
2568): secondary text containing 17:08 matches; 17:10, two minutes away,
still matches; 17:11, three minutes away, does not; 17:12 does not. -/
theorem crosscheck_tolerance_scenarios :
    (verifyDateTime 2568 "015298170819BQR02651".data
      "25 ต.ค. 68 17:08 น.".data).timeMatch = true ∧
    (verifyDateTime 2568 "015298170819BQR02651".data
      "25 ต.ค. 68 17:10 น.".data).timeMatch = true ∧
    (verifyDateTime 2568 "015298170819BQR02651".data
      "25 ต.ค. 68 17:11 น.".data).timeMatch = false ∧
    (verifyDateTime 2568 "015298170819BQR02651".data
      "25 ต.ค. 68 17:12 น.".data).timeMatch = false := by
  decide

/-- C7.  For slip data with a structurally valid transaction identifier,
`validateSlip` accepts exactly when the accumulated hard-error list is
empty and the score reaches seventy percent of the budget; the
authenticity check contributes its full 25-point budget at LOW risk,
a partial 15 points plus a warning at MEDIUM, and zero points plus a hard
error (not merely a warning) at HIGH. -/
theorem validateSlip_verdict (cy : Nat) (slip : SlipData) (ex : ExpectedData)
    (tid : List Char) (p : ParsedIdentifier)
    (hs : slip.success = true) (ht : slip.transactionId = some tid)
    (hv : (isValid cy tid).valid = true)
    (hpd : (isValid cy tid).parsed = some p) :
    ((validateSlip cy slip ex).valid = true ↔
       ((validateSlip cy slip ex).errors = [] ∧
        70 * (validateSlip cy slip ex).maxScore ≤ 100 * (validateSlip cy slip ex).score)) ∧
    ((validateSlip cy slip ex).maxScore =
       25 + (timeBlock cy slip tid p).maxPts + (amountBlock slip ex).maxPts +
       (recipientBlock slip ex).maxPts + (ocrBlock slip).maxPts) ∧
    ((detectFakeSlip cy tid).riskLevel = .LOW →
       (validateSlip cy slip ex).score =
         25 + (timeBlock cy slip tid p).pts + (amountBlock slip ex).pts +
         (recipientBlock slip ex).pts + (ocrBlock slip).pts) ∧
    ((detectFakeSlip cy tid).riskLevel = .MEDIUM →
       (validateSlip cy slip ex).score =
         15 + (timeBlock cy slip tid p).pts + (amountBlock slip ex).pts +
         (recipientBlock slip ex).pts + (ocrBlock slip).pts ∧
       suspiciousWarnMsg (detectFakeSlip cy tid) ∈ (validateSlip cy slip ex).warnings) ∧
    ((detectFakeSlip cy tid).riskLevel = .HIGH →
       (validateSlip cy slip ex).score =
         (timeBlock cy slip tid p).pts + (amountBlock slip ex).pts +
         (recipientBlock slip ex).pts + (ocrBlock slip).pts ∧
       highRiskErrMsg (detectFakeSlip cy tid) ∈ (validateSlip cy slip ex).errors) := by
  have hne : tid ≠ [] := by
    intro he
    rw [he] at hv
    simp [isValid] at hv
  have hred : validateSlip cy slip ex =
      ⟨decide ((authErrsOf (detectFakeSlip cy tid) ++ (timeBlock cy slip tid p).errs ++
          (amountBlock slip ex).errs ++ (recipientBlock slip ex).errs ++ (ocrBlock slip).errs) = []) &&
       decide (70 * (25 + (timeBlock cy slip tid p).maxPts + (amountBlock slip ex).maxPts +
          (recipientBlock slip ex).maxPts + (ocrBlock slip).maxPts) ≤
        100 * (authPoints (detectFakeSlip cy tid).riskLevel + (timeBlock cy slip tid p).pts +
          (amountBlock slip ex).pts + (recipientBlock slip ex).pts + (ocrBlock slip).pts)),
       authErrsOf (detectFakeSlip cy tid) ++ (timeBlock cy slip tid p).errs ++
         (amountBlock slip ex).errs ++ (recipientBlock slip ex).errs ++ (ocrBlock slip).errs,
       authWarnsOf (detectFakeSlip cy tid) ++ (timeBlock cy slip tid p).warns ++
         (amountBlock slip ex).warns ++ (recipientBlock slip ex).warns ++ (ocrBlock slip).warns,
       authPoints (detectFakeSlip cy tid).riskLevel + (timeBlock cy slip tid p).pts +
         (amountBlock slip ex).pts + (recipientBlock slip ex).pts + (ocrBlock slip).pts,
       25 + (timeBlock cy slip tid p).maxPts + (amountBlock slip ex).maxPts +
         (recipientBlock slip ex).maxPts + (ocrBlock slip).maxPts,
       some (detectFakeSlip cy tid),
       some (authLabelOf (detectFakeSlip cy tid).riskLevel)⟩ := by
    unfold validateSlip
    rw [ht]
    simp [hs, hne, hv, hpd]
  rw [hred]
  refine ⟨?_, rfl, ?_, ?_, ?_⟩
  · simp [Bool.and_eq_true, decide_eq_true_iff]
  · intro hL
    rw [hL]
    rfl
  · intro hM
    rw [hM]
    refine ⟨rfl, ?_⟩
    simp [authWarnsOf, hM, List.mem_append]
  · intro hH
    rw [hH]
    constructor
    · simp [authPoints]
    · simp [authErrsOf, hH, List.mem_append]

/-- Witness for C7 at a concrete LOW-risk slip. -/
theorem validateSlip_verdict_witness :
    ((validateSlip 2568 slipW expW).valid = true ↔
       ((validateSlip 2568 slipW expW).errors = [] ∧
        70 * (validateSlip 2568 slipW expW).maxScore ≤ 100 * (validateSlip 2568 slipW expW).score)) ∧
    (validateSlip 2568 slipW expW).score =
      25 + (timeBlock 2568 slipW "015298170819BQR02651".data
        ((isValid 2568 "015298170819BQR02651".data).parsed.getD defaultParsed)).pts +
      (amountBlock slipW expW).pts + (recipientBlock slipW expW).pts + (ocrBlock slipW).pts :=
  ⟨(validateSlip_verdict 2568 slipW expW "015298170819BQR02651".data
      ((isValid 2568 "015298170819BQR02651".data).parsed.getD defaultParsed)
      rfl rfl (by decide) (by decide)).1,
   (validateSlip_verdict 2568 slipW expW "015298170819BQR02651".data
      ((isValid 2568 "015298170819BQR02651".data).parsed.getD defaultParsed)
      rfl rfl (by decide) (by decide)).2.2.1 (by decide)⟩

theorem replaceAllF_nil (k v : List Char) (f : Nat) : replaceAllF k v f [] = [] := by
  cases f <;> rfl

theorem replaceAllF_congr (k v : List Char) (hk : k ≠ []) :
    ∀ f1 f2 s, s.length ≤ f1 → s.length ≤ f2 →
      replaceAllF k v f1 s = replaceAllF k v f2 s := by
  intro f1
  induction f1 with
  | zero =>
    intro f2 s h1 _
    have hs : s = [] := List.length_eq_zero.mp (Nat.le_zero.mp h1)
    subst hs
    rw [replaceAllF_nil, replaceAllF_nil]
  | succ m ih =>
    intro f2 s h1 h2
    cases s with
    | nil => rw [replaceAllF_nil, replaceAllF_nil]
    | cons c rest =>
      cases f2 with
      | zero => simp at h2
      | succ m2 =>
        have hkpos : 1 ≤ k.length := by
          cases k with
          | nil => exact absurd rfl hk
          | cons a as => simp
        simp only [replaceAllF]
        by_cases hsw : startsWithL k (c :: rest) = true
        · rw [if_pos hsw, if_pos hsw]
          have hd : ((c :: rest).drop k.length).length ≤ m := by
            simp only [List.length_drop, List.length_cons]
            simp only [List.length_cons] at h1
            omega
          have hd2 : ((c :: rest).drop k.length).length ≤ m2 := by
            simp only [List.length_drop, List.length_cons]
            simp only [List.length_cons] at h2
            omega
          rw [ih m2 _ hd hd2]
        · rw [if_neg hsw, if_neg hsw]
          have hr : rest.length ≤ m := by
            simp only [List.length_cons] at h1
            omega
          have hr2 : rest.length ≤ m2 := by
            simp only [List.length_cons] at h2
            omega
          rw [ih m2 rest hr hr2]

theorem replaceAll_nil (k v : List Char) : replaceAll k v [] = [] := by
  unfold replaceAll
  split <;> rfl

theorem replaceAll_cons (k v : List Char) (hk : k ≠ []) (c : Char) (rest : List Char) :
    replaceAll k v (c :: rest) =
      if startsWithL k (c :: rest) = true then
        v ++ replaceAll k v ((c :: rest).drop k.length)
      else c :: replaceAll k v rest := by
  have hke : k.isEmpty = false := by
    cases k with
    | nil => exact absurd rfl hk
    | cons a as => rfl
  have hkpos : 1 ≤ k.length := by
    cases k with
    | nil => exact absurd rfl hk
    | cons a as => simp
  unfold replaceAll
  rw [hke]
  simp only [Bool.false_eq_true, if_false, List.length_cons]
  rw [show replaceAllF k v (rest.length + 1) (c :: rest) =
      if startsWithL k (c :: rest) = true then
        v ++ replaceAllF k v rest.length ((c :: rest).drop k.length)
      else c :: replaceAllF k v rest.length rest from rfl]
  by_cases hsw : startsWithL k (c :: rest) = true
  · rw [if_pos hsw, if_pos hsw]
    rw [replaceAllF_congr k v hk rest.length ((c :: rest).drop k.length).length _
      (by simp only [List.length_drop, List.length_cons]; omega) le_rfl]
  · rw [if_neg hsw, if_neg hsw]

theorem notEmpty_isEmpty_false (k : List Char) (hk : k ≠ []) : k.isEmpty = false := by
  cases k with
  | nil => exact absurd rfl hk
  | cons a as => rfl

theorem occursIn_nil_eq (k : List Char) : occursIn k [] = k.isEmpty := rfl

/-- An occurrence inside a suffix is an occurrence. -/
theorem occursIn_of_drop (k : List Char) :
    ∀ n s, occursIn k (s.drop n) = true → occursIn k s = true := by
  intro n
  induction n with
  | zero => intro s h; simpa using h
  | succ m ih =>
    intro s h
    cases s with
    | nil => simpa using h
    | cons c rest =>
      have h1 : occursIn k rest = true := ih rest (by simpa using h)
      simp [occursIn, h1]

/-- A pattern made of key-characters cannot start inside appended text
that is free of key-characters. -/
theorem occursIn_append_nonkey (k a b : List Char) (hk : k ≠ [])
    (hkc : k.all keyChar = true) (ha : a.all (fun c => !keyChar c) = true) :
    occursIn k (a ++ b) = occursIn k b := by
  induction a with
  | nil => rfl
  | cons x xs ih =>
    simp only [List.all_cons, Bool.and_eq_true] at ha
    obtain ⟨kc, kt, rfl⟩ : ∃ kc kt, k = kc :: kt := by
      cases k with
      | nil => exact absurd rfl hk
      | cons kc kt => exact ⟨kc, kt, rfl⟩
    simp only [List.all_cons, Bool.and_eq_true] at hkc
    have hne : decide (kc = x) = false := by
      cases hx : decide (kc = x) with
      | false => rfl
      | true =>
        exfalso
        rw [decide_eq_true_iff] at hx
        rw [hx] at hkc
        rw [hkc.1] at ha
        simp at ha
    simp only [List.cons_append, occursIn, startsWithL, hne, Bool.false_and, Bool.false_or]
    exact ih ha.2

/-- A key-character pattern that is a leading segment of a replacement
result is a leading segment of the original text. -/
theorem startsWith_of_replaceAll (k2 v2 : List Char) (hk2 : k2 ≠ []) (hv2 : v2 ≠ [])
    (hv2c : v2.all (fun c => !keyChar c) = true) :
    ∀ n s q, s.length ≤ n → q.all keyChar = true →
      startsWithL q (replaceAll k2 v2 s) = true → startsWithL q s = true := by
  intro n
  induction n with
  | zero =>
    intro s q h1 _ hpre
    have hs : s = [] := List.length_eq_zero.mp (Nat.le_zero.mp h1)
    subst hs
    rwa [replaceAll_nil] at hpre
  | succ m ih =>
    intro s q h1 hq hpre
    cases s with
    | nil => rwa [replaceAll_nil] at hpre
    | cons c rest =>
      rw [replaceAll_cons k2 v2 hk2] at hpre
      cases q with
      | nil => rfl
      | cons qc qt =>
        simp only [List.all_cons, Bool.and_eq_true] at hq
        by_cases hsw : startsWithL k2 (c :: rest) = true
        · rw [if_pos hsw] at hpre
          obtain ⟨vc, vt, hveq⟩ : ∃ vc vt, v2 = vc :: vt := by
            cases v2 with
            | nil => exact absurd rfl hv2
            | cons vc vt => exact ⟨vc, vt, rfl⟩
          rw [hveq] at hpre hv2c
          simp only [List.cons_append, startsWithL, Bool.and_eq_true,
            decide_eq_true_iff] at hpre
          simp only [List.all_cons, Bool.and_eq_true] at hv2c
          rw [hpre.1] at hq
          rw [hq.1] at hv2c
          simp at hv2c
        · rw [if_neg hsw] at hpre
          simp only [startsWithL, Bool.and_eq_true] at hpre ⊢
          refine ⟨hpre.1, ?_⟩
          have hr : rest.length ≤ m := by
            simp only [List.length_cons] at h1
            omega
          exact ih rest qt hr hq.2 hpre.2

/-- Replacing a key erases it: the pattern does not occur in the result. -/
theorem occursIn_replaceAll_self (k v : List Char) (hk : k ≠ [])
    (hkc : k.all keyChar = true) (hv : v ≠ [])
    (hvc : v.all (fun c => !keyChar c) = true) :
    ∀ n s, s.length ≤ n → occursIn k (replaceAll k v s) = false := by
  intro n
  induction n with
  | zero =>
    intro s h1
    have hs : s = [] := List.length_eq_zero.mp (Nat.le_zero.mp h1)
    subst hs
    rw [replaceAll_nil, occursIn_nil_eq]
    exact notEmpty_isEmpty_false k hk
  | succ m ih =>
    intro s h1
    cases s with
    | nil =>
      rw [replaceAll_nil, occursIn_nil_eq]
      exact notEmpty_isEmpty_false k hk
    | cons c rest =>
      have hkpos : 1 ≤ k.length := by
        cases k with
        | nil => exact absurd rfl hk
        | cons a as => simp
      rw [replaceAll_cons k v hk]
      by_cases hsw : startsWithL k (c :: rest) = true
      · rw [if_pos hsw, occursIn_append_nonkey k v _ hk hkc hvc]
        apply ih
        simp only [List.length_drop, List.length_cons]
        simp only [List.length_cons] at h1
        omega
      · rw [if_neg hsw]
        have hr : rest.length ≤ m := by
          simp only [List.length_cons] at h1
          omega
        have hrest : occursIn k (replaceAll k v rest) = false := ih rest hr
        have hhead : startsWithL k (c :: replaceAll k v rest) = false := by
          cases hx : startsWithL k (c :: replaceAll k v rest) with
          | false => rfl
          | true =>
            exfalso
            obtain ⟨kc, kt, rfl⟩ : ∃ kc kt, k = kc :: kt := by
              cases k with
              | nil => exact absurd rfl hk
              | cons kc kt => exact ⟨kc, kt, rfl⟩
            simp only [startsWithL, Bool.and_eq_true] at hx
            simp only [List.all_cons, Bool.and_eq_true] at hkc
            have htl : startsWithL kt rest = true :=
              startsWith_of_replaceAll (kc :: kt) v hk hv hvc rest.length rest kt
                le_rfl hkc.2 hx.2
            have hful : startsWithL (kc :: kt) (c :: rest) = true := by
              simp only [startsWithL, Bool.and_eq_true]
              exact ⟨hx.1, htl⟩
            exact absurd hful hsw
        simp [occursIn, hhead, hrest]

/-- Replacing a different key cannot create an occurrence of a
key-character pattern that was absent. -/
theorem occursIn_replaceAll_other (k k2 v2 : List Char) (hk : k ≠ [])
    (hkc : k.all keyChar = true) (hk2 : k2 ≠ []) (hv2 : v2 ≠ [])
    (hv2c : v2.all (fun c => !keyChar c) = true) :
    ∀ n s, s.length ≤ n → occursIn k s = false →
      occursIn k (replaceAll k2 v2 s) = false := by
  intro n
  induction n with
  | zero =>
    intro s h1 habs
    have hs : s = [] := List.length_eq_zero.mp (Nat.le_zero.mp h1)
    subst hs
    rwa [replaceAll_nil]
  | succ m ih =>
    intro s h1 habs
    cases s with
    | nil => rwa [replaceAll_nil]
    | cons c rest =>
      have hk2pos : 1 ≤ k2.length := by
        cases k2 with
        | nil => exact absurd rfl hk2
        | cons a as => simp
      simp only [occursIn, Bool.or_eq_false_iff] at habs
      rw [replaceAll_cons k2 v2 hk2]
      by_cases hsw : startsWithL k2 (c :: rest) = true
      · rw [if_pos hsw, occursIn_append_nonkey k v2 _ hk hkc hv2c]
        apply ih
        · simp only [List.length_drop, List.length_cons]
          simp only [List.length_cons] at h1
          omega
        · cases hx : occursIn k ((c :: rest).drop k2.length) with
          | false => rfl
          | true =>
            exfalso
            have hco : occursIn k (c :: rest) = true :=
              occursIn_of_drop k k2.length (c :: rest) hx
            simp [occursIn, habs.1, habs.2] at hco
      · rw [if_neg hsw]
        have hr : rest.length ≤ m := by
          simp only [List.length_cons] at h1
          omega
        have hrest : occursIn k (replaceAll k2 v2 rest) = false := ih rest hr habs.2
        have hhead : startsWithL k (c :: replaceAll k2 v2 rest) = false := by
          cases hx : startsWithL k (c :: replaceAll k2 v2 rest) with
          | false => rfl
          | true =>
            exfalso
            obtain ⟨kc, kt, rfl⟩ : ∃ kc kt, k = kc :: kt := by
              cases k with
              | nil => exact absurd rfl hk
              | cons kc kt => exact ⟨kc, kt, rfl⟩
            simp only [startsWithL, Bool.and_eq_true] at hx
            simp only [List.all_cons, Bool.and_eq_true] at hkc
            have htl : startsWithL kt rest = true :=
              startsWith_of_replaceAll k2 v2 hk2 hv2 hv2c rest.length rest kt
                le_rfl hkc.2 hx.2
            have hful : startsWithL (kc :: kt) (c :: rest) = true := by
              simp only [startsWithL, Bool.and_eq_true]
              exact ⟨hx.1, htl⟩
            rw [habs.1] at hful
            exact Bool.false_ne_true hful
        simp [occursIn, hhead, hrest]

/-- Replacement is the identity when the pattern does not occur. -/
theorem replaceAll_of_not_occurs (k v : List Char) (hk : k ≠ []) :
    ∀ s, occursIn k s = false → replaceAll k v s = s := by
  intro s
  induction s with
  | nil => intro _; exact replaceAll_nil k v
  | cons c rest ih =>
    intro h
    simp only [occursIn, Bool.or_eq_false_iff] at h
    rw [replaceAll_cons k v hk, if_neg (by simp [h.1]), ih h.2]

theorem applyFixes_preserves_absent (t : List (List Char × List Char))
    (ht : ∀ p ∈ t, goodPair p) (k : List Char) (hk : k ≠ [])
    (hkc : k.all keyChar = true) :
    ∀ s, occursIn k s = false → occursIn k (applyFixes t s) = false := by
  induction t with
  | nil => intro s h; exact h
  | cons q rest ih =>
    intro s h
    have hq := ht q (List.mem_cons_self q rest)
    have := occursIn_replaceAll_other k q.1 q.2 hk hkc hq.1 hq.2.2.1 hq.2.2.2
      s.length s le_rfl h
    exact ih (fun p hp => ht p (List.mem_cons_of_mem q hp)) (replaceAll q.1 q.2 s) this

theorem applyFixes_no_key (t : List (List Char × List Char))
    (ht : ∀ p ∈ t, goodPair p) :
    ∀ s, ∀ p ∈ t, occursIn p.1 (applyFixes t s) = false := by
  induction t with
  | nil => intro s p hp; exact absurd hp (List.not_mem_nil p)
  | cons q rest ih =>
    intro s p hp
    rcases List.mem_cons.mp hp with rfl | hmem
    · have hq := ht p (List.mem_cons_self p rest)
      have h1 : occursIn p.1 (replaceAll p.1 p.2 s) = false :=
        occursIn_replaceAll_self p.1 p.2 hq.1 hq.2.1 hq.2.2.1 hq.2.2.2 s.length s le_rfl
      exact applyFixes_preserves_absent rest
        (fun r hr => ht r (List.mem_cons_of_mem p hr)) p.1 hq.1 hq.2.1 _ h1
    · exact ih (fun r hr => ht r (List.mem_cons_of_mem q hr)) (replaceAll q.1 q.2 s) p hmem

theorem applyFixes_fixed (t : List (List Char × List Char)) (s : List Char)
    (hne : ∀ p ∈ t, p.1 ≠ []) (h : ∀ p ∈ t, occursIn p.1 s = false) :
    applyFixes t s = s := by
  induction t with
  | nil => rfl
  | cons q rest ih =>
    have hq : replaceAll q.1 q.2 s = s :=
      replaceAll_of_not_occurs q.1 q.2 (hne q (List.mem_cons_self q rest)) s
        (h q (List.mem_cons_self q rest))
    show applyFixes rest (replaceAll q.1 q.2 s) = s
    rw [hq]
    exact ih (fun p hp => hne p (List.mem_cons_of_mem q hp))
      (fun p hp => h p (List.mem_cons_of_mem q hp))

theorem ocrFixes_good : ∀ p ∈ ocrFixes, goodPair p := by decide

/-- C8.  The character normalizer is idempotent: every substitution key is
made of slash/Thai characters while every replacement value is free of
them, so after one pass no key occurs in the output and a second pass
changes nothing. -/
theorem cleanOCRText_idem (s : List Char) :
    cleanOCRText (cleanOCRText s) = cleanOCRText s := by
  apply applyFixes_fixed
  · intro p hp
    exact (ocrFixes_good p hp).1
  · intro p hp
    exact applyFixes_no_key ocrFixes ocrFixes_good s p hp

theorem startsWith_mem (k : List Char) :
    ∀ s, startsWithL k s = true → ∀ c ∈ k, c ∈ s := by
  induction k with
  | nil =>
    intro s _ c hc
    exact absurd hc (List.not_mem_nil c)
  | cons kc kt ih =>
    intro s h c hc
    cases s with
    | nil => simp [startsWithL] at h
    | cons sc st =>
      simp only [startsWithL, Bool.and_eq_true, decide_eq_true_iff] at h
      rcases List.mem_cons.mp hc with rfl | hmem
      · rw [h.1]
        exact List.mem_cons_self sc st
      · exact List.mem_cons_of_mem sc (ih st h.2 c hmem)

theorem occursIn_mem (k : List Char) :
    ∀ s, occursIn k s = true → ∀ c ∈ k, c ∈ s := by
  intro s
  induction s with
  | nil =>
    intro h c hc
    simp only [occursIn_nil_eq, List.isEmpty_iff] at h
    subst h
    exact absurd hc (List.not_mem_nil c)
  | cons sc st ih =>
    intro h c hc
    simp only [occursIn, Bool.or_eq_true] at h
    rcases h with h | h
    · exact startsWith_mem k (sc :: st) h c hc
    · exact List.mem_cons_of_mem sc (ih h c hc)

theorem thaiToEnglish_keys :
    ∀ p ∈ thaiToEnglish, p.1 ≠ [] ∧ ∃ c ∈ p.1, inThaiStripRange c = true := by
  decide

/-- On a candidate free of Thai characters, the repair engine's
pre-cleaning is the identity. -/
theorem thaiCleaned_id (s : List Char) (h : noThaiChars s = true) :
    thaiCleaned s = s := by
  unfold thaiCleaned
  have h1 : applyFixes thaiToEnglish s = s := by
    apply applyFixes_fixed
    · intro p hp
      exact (thaiToEnglish_keys p hp).1
    · intro p hp
      cases ho : occursIn p.1 s with
      | false => rfl
      | true =>
        exfalso
        obtain ⟨c, hck, hcr⟩ := (thaiToEnglish_keys p hp).2
        have hcs : c ∈ s := occursIn_mem p.1 s ho c hck
        have := List.all_eq_true.mp h c hcs
        rw [hcr] at this
        simp at this
  rw [h1]
  apply List.filter_eq_self.mpr
  intro a ha
  exact List.all_eq_true.mp h a ha

theorem genSplit_recombine (c pre mid suf : List Char)
    (h : genSplit c = some (pre, mid, suf)) : pre ++ (mid ++ suf) = c := by
  unfold genSplit at h
  by_cases hgp : genPreOk c = true
  · rw [if_pos hgp] at h
    cases hm : [2, 3, 4, 5, 6, 7].find? (fun m => genTry c m) with
    | none =>
      rw [hm] at h
      exact absurd h (by simp)
    | some m =>
      rw [hm] at h
      simp only [Option.some.injEq, Prod.mk.injEq] at h
      obtain ⟨h1, h2, h3⟩ := h
      subst h1
      subst h2
      subst h3
      have e : c.drop (12 + m) = (c.drop 12).drop m := by
        rw [List.drop_drop, Nat.add_comm]
      rw [e, List.take_append_drop, List.take_append_drop]
  · rw [if_neg hgp] at h
    exact absurd h (by simp)

/-- When no positional rule fires, the rule ladder reassembles the split
unchanged. -/
theorem fixAfterSplit_passthrough (pre mid suf cleaned : List Char)
    (hrec : pre ++ (mid ++ suf) = cleaned) (h : midRuleFires mid = false) :
    fixAfterSplit pre mid suf cleaned = cleaned := by
  unfold midRuleFires at h
  have h1 := Bool.or_eq_false_iff.mp h
  have h2 := Bool.or_eq_false_iff.mp h1.1
  have h3 := Bool.or_eq_false_iff.mp h2.1
  have ha := h3.1
  have hb := h3.2
  have hc := h2.2
  have hd := h1.2
  have hdr : digitRule mid = none := by
    cases hdm : digitRule mid with
    | none => rfl
    | some r =>
      rw [hdm] at hc
      simp at hc
  unfold fixAfterSplit
  rw [if_neg (of_decide_eq_false ha), if_neg (of_decide_eq_false hb), hdr]
  by_cases hguard : (hasUpperC mid && decide (3 ≤ mid.length) && decide (mid.length ≤ 4)) = true
  · rw [hguard] at hd
    simp only [Bool.true_and, Bool.or_eq_false_iff] at hd
    simp only [if_pos hguard]
    rw [if_neg (by simp [hd.1]), if_neg (by simp [hd.2])]
    simpa using hrec
  · simp only [Bool.not_eq_true] at hguard
    simp [hguard]

/-- C9 (amended).  The repair engine returns ineligible candidates (length
below 20) unchanged; an eligible candidate that is free of Thai characters
and on which no positional/contextual repair rule fires also passes
through unchanged.  (A Thai-bearing candidate is first transliterated and
stripped, so it can change even when no rule fires.) -/
theorem repair_passthrough (s : List Char) :
    (s.length < 20 → fixTransactionIdOCRErrors s = s) ∧
    (noThaiChars s = true → ruleFires s = false → fixTransactionIdOCRErrors s = s) := by
  constructor
  · intro h
    unfold fixTransactionIdOCRErrors
    rw [if_pos h]
  · intro hnt hrf
    have hc : thaiCleaned s = s := thaiCleaned_id s hnt
    unfold ruleFires at hrf
    rw [hc] at hrf
    unfold fixTransactionIdOCRErrors
    rw [hc]
    by_cases hlen : s.length < 20
    · rw [if_pos hlen]
    · rw [if_neg hlen]
      rw [Bool.or_eq_false_iff] at hrf
      have hbqr : bqrSplit s = none := by
        cases hb : bqrSplit s with
        | none => rfl
        | some pr =>
          rw [hb] at hrf
          simp at hrf
      cases hg : genSplit s with
      | none => simp only [hbqr, hg]
      | some g =>
        rw [hg] at hrf
        obtain ⟨g1, g2, g3⟩ := g
        simp only [hbqr, hg]
        exact fixAfterSplit_passthrough g1 g2 g3 s
          (genSplit_recombine s g1 g2 g3 hg) hrf.2

/-- Witness for the amended C9: a rule-free eligible candidate and an
ineligible short candidate both pass through unchanged. -/
theorem repair_passthrough_witness :
    fixTransactionIdOCRErrors "015298170819BQR02651".data = "015298170819BQR02651".data ∧
    fixTransactionIdOCRErrors "0152".data = "0152".data :=
  ⟨(repair_passthrough "015298170819BQR02651".data).2 (by decide) (by decide),
   (repair_passthrough "0152".data).1 (by decide)⟩

/-- C9 counterexample: an eligible candidate carrying one Thai character
on which no repair rule fires, yet the repair function does not return it
unchanged (the Thai character is stripped). -/
theorem repair_passthrough_counterexample :
    ruleFires "AAAAAAAAAAAAAAAAAAAAด".data = false ∧
    fixTransactionIdOCRErrors "AAAAAAAAAAAAAAAAAAAAด".data ≠ "AAAAAAAAAAAAAAAAAAAAด".data := by
  decide

end SlipSpec
